import Mathlib

set_option autoImplicit false
set_option linter.unusedVariables false

/-!
Verification of the workflow execution engine of chriscow/vapi-go.

The definitions below are a shallow embedding of the Go sources under
src/workflow (engine.go, node.go, say_node.go, gather_node.go) together
with the drifting duplicate variants the repository carries
(src/workflows, src/unnamed/part_005, src/unnamed/part_007).  Go maps are
modelled as association lists with in-place overwrite, Go `time.Time`
values as abstract `Nat` clock readings supplied to each operation, and
Go's `error` returns as `Except`.
-/

namespace VapiGo

/-- Values held in workflow variables and extracted data
(Go `map[string]any` payloads: strings, numbers, booleans). -/
inductive JValue where
  | str (s : String)
  | num (n : Int)
  | jbool (b : Bool)
deriving DecidableEq, Repr

/-- Lookup in an association-list model of a Go map. -/
def lookupKey {K V : Type} [DecidableEq K] : List (K × V) → K → Option V
  | [], _ => none
  | (k, v) :: rest, key => if k = key then some v else lookupKey rest key

/-- Go map assignment `m[key] = v`: overwrite in place, append when absent. -/
def insertKey {K V : Type} [DecidableEq K] : List (K × V) → K → V → List (K × V)
  | [], key, v => [(key, v)]
  | (k, w) :: rest, key, v =>
    if k = key then (key, v) :: rest else (k, w) :: insertKey rest key v

/-- Per-execution state (src/workflow WorkflowState struct,
src/unnamed/part_006 lines 138-149). -/
structure WorkflowState where
  workflowId : String
  userId : String
  callId : String
  currentNodeId : String
  completedNodeIds : List String
  vars : List (String × JValue)  -- Go field name: Variables
  lastMessageAt : Nat
  lastUpdatedAt : Nat
  isComplete : Bool
deriving DecidableEq, Repr

/-- Common node fields (src/workflow/node.go BaseNode).  The Go NodeType
discriminator is a string field, distinct from the dynamic struct type. -/
structure BaseNode where
  nodeId : String
  nodeType : String
  nextNodeId : String
  createdAt : Nat
  lastUpdatedAt : Nat
deriving DecidableEq, Repr

def nodeTypeSay : String := "say"
def nodeTypeGather : String := "gather"

/-- src/workflow/say_node.go SayNode struct. -/
structure SayNode where
  base : BaseNode
  message : String
  llmPrompt : String
  messageType : String
deriving DecidableEq, Repr

/-- One property of a gather schema (a `minds.Definition` value), restricted
to the fields the workflow code reads: Type, Description, Enum, Nullable.
(`minds.Definition` is recursive in Go, but the workflow code never descends
past one level of Properties.) -/
structure PropDef where
  type : String
  description : String
  enumVals : List String
  nullable : Bool
deriving DecidableEq, Repr

/-- Top level of a gather schema (`minds.Definition`): Type, Properties,
Required. -/
structure SchemaDef where
  type : String
  description : String
  properties : List (String × PropDef)
  required : List String
deriving DecidableEq, Repr

def mindsObject : String := "object"
def mindsString : String := "string"
def mindsNumber : String := "number"
def mindsInteger : String := "integer"
def mindsBoolean : String := "boolean"

/-- src/workflow/gather_node.go GatherNode struct (schema-keyed variant). -/
structure GatherNode where
  base : BaseNode
  gatherSchema : SchemaDef
  maxAttempts : Nat
  llmPrompt : String
  fallbackNodeId : String
  followUpPrompt : String
  extractedData : List (String × JValue)
deriving DecidableEq, Repr

/-- Closed tagged union of the two node variants stored in Workflow.Nodes. -/
inductive Node where
  | say (n : SayNode)
  | gather (n : GatherNode)
deriving DecidableEq, Repr

/-- Node.ID(): the NodeID field of the embedded BaseNode. -/
def Node.id : Node → String
  | .say n => n.base.nodeId
  | .gather n => n.base.nodeId

/-- Node.Type(): the NodeType string field of the embedded BaseNode. -/
def Node.type : Node → String
  | .say n => n.base.nodeType
  | .gather n => n.base.nodeType

/-- The NextNodeID field of the embedded BaseNode. -/
def Node.nextNodeId : Node → String
  | .say n => n.base.nextNodeId
  | .gather n => n.base.nextNodeId

/-- Node execution failures (Go `error` results of Execute). -/
inductive ExecError where
  | invalidMessageType (t : String)
  | extractionFailed
deriving DecidableEq, Repr

/-- json.Marshal of a variable value as rendered into a generated-say prompt
(string escaping elided: only quoting is modelled). -/
def renderValue : JValue → String
  | .str s => "\"" ++ s ++ "\""
  | .num n => toString n
  | .jbool b => if b then "true" else "false"

/-- SayNode.Execute (src/workflow/say_node.go lines 61-109): resolve the
message from MessageType ("exact" takes Message, "generated" renders the
prompt plus the state variables, anything else resolves the empty string),
record it under lastSayMessage, append the node id to CompletedNodeIDs,
advance CurrentNodeID to NextNodeID or mark IsComplete, stamp LastUpdatedAt.
It never returns an error. -/
def SayNode.execute (now : Nat) (n : SayNode) (s : WorkflowState) :
    Except ExecError (SayNode × WorkflowState) :=
  let message :=
    if n.messageType = "exact" then n.message
    else if n.messageType = "generated" then
      let prompt := s.vars.foldl
        (fun p kv => p ++ "\n" ++ kv.1 ++ ": " ++ renderValue kv.2) n.llmPrompt
      "Generated message based on: " ++ prompt
    else ""
  .ok (n,
    { s with
      vars := insertKey s.vars "lastSayMessage" (JValue.str message)
      completedNodeIds := s.completedNodeIds ++ [n.base.nodeId]
      currentNodeId := if n.base.nextNodeId ≠ "" then n.base.nextNodeId else s.currentNodeId
      isComplete := if n.base.nextNodeId ≠ "" then s.isComplete else true
      lastUpdatedAt := now })

/-- The missing-required-property computation inlined in GatherNode.Execute
(src/workflow/gather_node.go lines 288-307): a property name is collected
when the schema is an object, the name appears in Required, and it is absent
from the node's ExtractedData.  This inline computation does not consult the
Nullable flag. -/
def gatherExecMissing (n : GatherNode) : List String :=
  if n.gatherSchema.type = mindsObject then
    n.gatherSchema.properties.foldl
      (fun acc p =>
        if p.1 ∈ n.gatherSchema.required ∧ lookupKey n.extractedData p.1 = none
        then acc ++ [p.1] else acc) []
  else []

/-- GatherNode.getMissingProperties (src/workflow/gather_node.go lines
110-137): like the inline computation, but a property that is not required
or is Nullable is skipped. -/
def getMissingProperties (n : GatherNode) : List String :=
  if n.gatherSchema.type = mindsObject then
    n.gatherSchema.properties.foldl
      (fun acc p =>
        if p.1 ∈ n.gatherSchema.required ∧ p.2.nullable = false
            ∧ lookupKey n.extractedData p.1 = none
        then acc ++ [p.1] else acc) []
  else []

/-- Zero value of a Go minds.Definition, produced by indexing Properties at
an absent key. -/
def zeroProp : PropDef :=
  { type := "", description := "", enumVals := [], nullable := false }

/-- Go map indexing `n.GatherSchema.Properties[propName]`. -/
def getProp (schema : SchemaDef) (pn : String) : PropDef :=
  (lookupKey schema.properties pn).getD zeroProp

/-- The simulated extraction value per property type
(src/workflow/gather_node.go lines 326-343). -/
def dummyValue (pn : String) (pd : PropDef) : JValue :=
  if pd.type = mindsString then .str ("Sample " ++ pn)
  else if pd.type = mindsNumber ∨ pd.type = mindsInteger then .num 42
  else if pd.type = mindsBoolean then .jbool true
  else
    match pd.enumVals with
    | e :: _ => .str e
    | [] => .str "unknown"

/-- GatherNode.Execute (src/workflow/gather_node.go lines 273-374): compute
the missing required properties; when some are missing, simulate extraction
of each into ExtractedData and merge all of ExtractedData into the state
variables; always append the node id to CompletedNodeIDs, advance
CurrentNodeID to NextNodeID or mark IsComplete, stamp LastUpdatedAt.  The
MVP extraction stub always succeeds, so no error is ever returned and
MaxAttempts and FallbackNodeID are never consulted. -/
def GatherNode.execute (now : Nat) (n : GatherNode) (s : WorkflowState) :
    Except ExecError (GatherNode × WorkflowState) :=
  let missing := gatherExecMissing n
  let ed :=
    if missing = [] then n.extractedData
    else missing.foldl
      (fun acc pn => insertKey acc pn (dummyValue pn (getProp n.gatherSchema pn)))
      n.extractedData
  let vars :=
    if missing = [] then s.vars
    else ed.foldl (fun acc kv => insertKey acc kv.1 kv.2) s.vars
  .ok ({ n with extractedData := ed },
    { s with
      vars := vars
      completedNodeIds := s.completedNodeIds ++ [n.base.nodeId]
      currentNodeId := if n.base.nextNodeId ≠ "" then n.base.nextNodeId else s.currentNodeId
      isComplete := if n.base.nextNodeId ≠ "" then s.isComplete else true
      lastUpdatedAt := now })

/-- Dynamic dispatch of Node.Execute over the two variants.  In Go the
receiver is mutated through the pointer held in Workflow.Nodes, so the
(possibly updated) node is returned alongside the state. -/
def Node.execute (now : Nat) (node : Node) (s : WorkflowState) :
    Except ExecError (Node × WorkflowState) :=
  match node with
  | .say n =>
    match SayNode.execute now n s with
    | .ok (n2, s2) => .ok (.say n2, s2)
    | .error e => .error e
  | .gather n =>
    match GatherNode.execute now n s with
    | .ok (n2, s2) => .ok (.gather n2, s2)
    | .error e => .error e

/-- SayNode.Execute variant of src/unnamed/part_005 (lines 71-103): takes the
conversation messages (unused by the body), returns an error for a message
type that is neither exact nor generated, and does not record lastSayMessage;
otherwise it advances the state exactly as the engine-package variant. -/
def sayExecuteMsgs (now : Nat) (n : SayNode) (s : WorkflowState)
    (msgs : List (String × String)) : Except ExecError WorkflowState :=
  if n.messageType = "exact" ∨ n.messageType = "generated" then
    .ok { s with
      completedNodeIds := s.completedNodeIds ++ [n.base.nodeId]
      currentNodeId := if n.base.nextNodeId ≠ "" then n.base.nextNodeId else s.currentNodeId
      isComplete := if n.base.nextNodeId ≠ "" then s.isComplete else true
      lastUpdatedAt := now }
  else .error (.invalidMessageType n.messageType)

/-- Workflow definition (src/unnamed/part_006 lines 151-160). -/
structure Workflow where
  id : String
  name : String
  description : String
  nodes : List (String × Node)
  startNodeId : String
  createdAt : Nat
  updatedAt : Nat
deriving DecidableEq, Repr

/-- Modelled from the spec: the WorkflowStorage implementation (storage.go,
named by WORKFLOWS.md) is not under src/; only the interface and its callers
are.  Per spec section 6 it durably persists workflows keyed by id and
execution states keyed by the (workflowId, userId, callId) triple. -/
structure Storage where
  workflows : List (String × Workflow)
  states : List ((String × String × String) × WorkflowState)
deriving DecidableEq, Repr

def saveWorkflow (σ : Storage) (wf : Workflow) : Storage :=
  { σ with workflows := insertKey σ.workflows wf.id wf }

def getWorkflow (σ : Storage) (workflowId : String) : Option Workflow :=
  lookupKey σ.workflows workflowId

/-- Modelled from the spec: GetWorkflowState must return a fresh zero-value
state, not an error, when none exists yet (spec section 6).  The identifying
triple fields of the fresh state are populated from the lookup keys so that
SaveWorkflowState can address the state, which StartWorkflow relies on to
detect a not-yet-started execution. -/
def getWorkflowState (σ : Storage) (workflowId userId callId : String) : WorkflowState :=
  match lookupKey σ.states (workflowId, userId, callId) with
  | some s => s
  | none =>
    { workflowId := workflowId, userId := userId, callId := callId,
      currentNodeId := "", completedNodeIds := [], vars := [],
      lastMessageAt := 0, lastUpdatedAt := 0, isComplete := false }

def saveWorkflowState (σ : Storage) (s : WorkflowState) : Storage :=
  { σ with states := insertKey σ.states (s.workflowId, s.userId, s.callId) s }

/-- Engine-level failures (the engine's Go error returns, classified). -/
inductive EngineError where
  | validation (msg : String)
  | workflowNotFound (id : String)
  | nodeNotFound (id : String)
  | execFailed (e : ExecError)
deriving DecidableEq, Repr

/-- WorkflowEngine.CreateWorkflow (src/workflow/engine.go lines 43-67):
validate non-empty id, non-empty start node id, non-empty node set, and that
the start node id resolves; stamp CreatedAt when zero and UpdatedAt always;
persist.  The failed validations leave storage untouched. -/
def createWorkflow (σ : Storage) (wf : Workflow) (now : Nat) :
    Storage × Except EngineError Unit :=
  if wf.id = "" then
    (σ, .error (.validation "workflow ID cannot be empty"))
  else if wf.startNodeId = "" then
    (σ, .error (.validation "workflow must have a start node"))
  else if wf.nodes = [] then
    (σ, .error (.validation "workflow must have at least one node"))
  else
    match lookupKey wf.nodes wf.startNodeId with
    | none => (σ, .error (.validation
        ("start node ID " ++ wf.startNodeId ++ " not found in workflow nodes")))
    | some _ =>
      let wf2 := { wf with
        createdAt := if wf.createdAt = 0 then now else wf.createdAt
        updatedAt := now }
      (saveWorkflow σ wf2, .ok ())

/-- WorkflowEngine.StartWorkflow (src/workflow/engine.go lines 72-99): load
the workflow, load or lazily create the execution state, and when no current
node is set point it at the workflow's start node and persist; an already
started execution is returned unchanged without a save. -/
def startWorkflow (σ : Storage) (workflowId userId callId : String) :
    Storage × Except EngineError WorkflowState :=
  match getWorkflow σ workflowId with
  | none => (σ, .error (.workflowNotFound workflowId))
  | some wf =>
    let state := getWorkflowState σ workflowId userId callId
    if state.currentNodeId = "" then
      let state2 := { state with currentNodeId := wf.startNodeId }
      (saveWorkflowState σ state2, .ok state2)
    else (σ, .ok state)

/-- WorkflowEngine.ProcessConversationUpdate (src/workflow/engine.go lines
104-182): load workflow and state; a complete state is returned untouched;
otherwise stamp LastMessageAt, resolve the current node (failing with
ErrNodeNotFound), execute it, persist; then, when the state is not complete
and the current node id moved, resolve the successor and, only when its
Type() is say, execute it too and persist again.  The messages argument is
unused by the source body. -/
def processConversationUpdate (σ : Storage) (workflowId userId callId : String)
    (messages : List (List (String × String))) (now : Nat) :
    Storage × Except EngineError WorkflowState :=
  match getWorkflow σ workflowId with
  | none => (σ, .error (.workflowNotFound workflowId))
  | some wf =>
    let state0 := getWorkflowState σ workflowId userId callId
    if state0.isComplete then (σ, .ok state0)
    else
      let state1 := { state0 with lastMessageAt := now }
      match lookupKey wf.nodes state1.currentNodeId with
      | none => (σ, .error (.nodeNotFound state1.currentNodeId))
      | some currentNode =>
        match currentNode.execute now state1 with
        | .error e => (σ, .error (.execFailed e))
        | .ok (currentNode2, s1) =>
          let wf2 := { wf with nodes := insertKey wf.nodes state1.currentNodeId currentNode2 }
          let σ1 := saveWorkflowState σ s1
          if s1.isComplete = false ∧ s1.currentNodeId ≠ currentNode.id then
            match lookupKey wf2.nodes s1.currentNodeId with
            | none => (σ1, .ok s1)
            | some nextNode =>
              if nextNode.type = nodeTypeSay then
                match nextNode.execute now s1 with
                | .error e => (σ1, .error (.execFailed e))
                | .ok (_, s2) => (saveWorkflowState σ1 s2, .ok s2)
              else (σ1, .ok s1)
          else (σ1, .ok s1)

/-- Modelled from the spec: a fallible external extraction capability,
indexed by attempt number; each attempt either yields extracted field values
or fails. -/
def Capability : Type := Nat → Option (List (String × JValue))

/-- Modelled from the spec: try the capability at attempts i, i+1, ... while
fuel remains, returning the first successful extraction. -/
def retryExtract (cap : Capability) : Nat → Nat → Option (List (String × JValue))
  | _, 0 => none
  | i, r + 1 =>
    match cap i with
    | some d => some d
    | none => retryExtract cap (i + 1) r

/-- Modelled from the spec: the production Gather execution against a
fallible external extraction capability is not under src/ (the src
GatherNode.Execute inlines an always-succeeding stub and never reads
MaxAttempts or FallbackNodeID).  Spec section 7: an extraction failure is
retried up to the node's maxAttempts, then the execution is routed to the
node's fallbackNodeId if present, else the error is surfaced. -/
def gatherExecuteExt (cap : Capability) (now : Nat) (n : GatherNode)
    (s : WorkflowState) : Except ExecError (GatherNode × WorkflowState) :=
  let missing := gatherExecMissing n
  if missing = [] then
    .ok (n,
      { s with
        completedNodeIds := s.completedNodeIds ++ [n.base.nodeId]
        currentNodeId := if n.base.nextNodeId ≠ "" then n.base.nextNodeId else s.currentNodeId
        isComplete := if n.base.nextNodeId ≠ "" then s.isComplete else true
        lastUpdatedAt := now })
  else
    match retryExtract cap 0 n.maxAttempts with
    | some data =>
      let ed := data.foldl (fun acc kv => insertKey acc kv.1 kv.2) n.extractedData
      let vars := ed.foldl (fun acc kv => insertKey acc kv.1 kv.2) s.vars
      .ok ({ n with extractedData := ed },
        { s with
          vars := vars
          completedNodeIds := s.completedNodeIds ++ [n.base.nodeId]
          currentNodeId := if n.base.nextNodeId ≠ "" then n.base.nextNodeId else s.currentNodeId
          isComplete := if n.base.nextNodeId ≠ "" then s.isComplete else true
          lastUpdatedAt := now })
    | none =>
      if n.fallbackNodeId ≠ "" then
        .ok (n, { s with currentNodeId := n.fallbackNodeId, lastUpdatedAt := now })
      else .error .extractionFailed


/-! Concrete fixtures used by witnesses and counterexamples. -/

def emptyStorage : Storage := { workflows := [], states := [] }

/-- Base of the example Gather node A (edge to B). -/
def exBaseA : BaseNode :=
  { nodeId := "A", nodeType := "gather", nextNodeId := "B", createdAt := 0, lastUpdatedAt := 0 }

/-- Base of the example terminal Say node B. -/
def exBaseB : BaseNode :=
  { nodeId := "B", nodeType := "say", nextNodeId := "", createdAt := 0, lastUpdatedAt := 0 }

/-- The user-profile schema of the repository test (src/unnamed/part_004):
name and email required, age optional. -/
def exSchema : SchemaDef :=
  { type := "object", description := "User Profile",
    properties :=
      [("name", { type := "string", description := "full name", enumVals := [], nullable := false }),
       ("age", { type := "integer", description := "age in years", enumVals := [], nullable := false }),
       ("email", { type := "string", description := "email address", enumVals := [], nullable := false })],
    required := ["name", "email"] }

def exGatherA : GatherNode :=
  { base := exBaseA, gatherSchema := exSchema, maxAttempts := 3,
    llmPrompt := "Extract the user profile.", fallbackNodeId := "",
    followUpPrompt := "", extractedData := [] }

def exSayB : SayNode :=
  { base := exBaseB, message := "Goodbye", llmPrompt := "", messageType := "exact" }

/-- Two-node workflow A(Gather, next=B) -> B(Say, next empty). -/
def exWorkflow : Workflow :=
  { id := "w", name := "intake", description := "",
    nodes := [("A", Node.gather exGatherA), ("B", Node.say exSayB)],
    startNodeId := "A", createdAt := 0, updatedAt := 0 }

/-- Execution state positioned at node A, nothing completed. -/
def exStateA : WorkflowState :=
  { workflowId := "w", userId := "u", callId := "c", currentNodeId := "A",
    completedNodeIds := [], vars := [], lastMessageAt := 0, lastUpdatedAt := 0,
    isComplete := false }

/-- Storage holding the two-node workflow and the state at A. -/
def exStorage : Storage :=
  { workflows := [("w", exWorkflow)], states := [(("w", "u", "c"), exStateA)] }

/-- A completed execution state. -/
def exStateDone : WorkflowState :=
  { exStateA with currentNodeId := "B", completedNodeIds := ["A", "B"], isComplete := true }

def exStorageDone : Storage :=
  { workflows := [("w", exWorkflow)], states := [(("w", "u", "c"), exStateDone)] }

/-- A state whose current node id resolves to no node of the workflow. -/
def exStateGhost : WorkflowState := { exStateA with currentNodeId := "ghost" }

def exStorageGhost : Storage :=
  { workflows := [("w", exWorkflow)], states := [(("w", "u", "c"), exStateGhost)] }

/-- Schema whose single property f is required yet marked nullable. -/
def exSchemaNullable : SchemaDef :=
  { type := "object", description := "",
    properties := [("f", { type := "string", description := "", enumVals := [], nullable := true })],
    required := ["f"] }

def exGatherNullable : GatherNode :=
  { base := exBaseA, gatherSchema := exSchemaNullable, maxAttempts := 1,
    llmPrompt := "", fallbackNodeId := "", followUpPrompt := "", extractedData := [] }

/-- A Say node whose message type is neither exact nor generated. -/
def exSayBogus : SayNode :=
  { base := { nodeId := "X", nodeType := "say", nextNodeId := "", createdAt := 0, lastUpdatedAt := 0 },
    message := "m", llmPrompt := "q", messageType := "bogus" }

/-- A workflow that satisfies the claimed validity conditions (non-empty id,
non-empty nodes, start node id present in nodes) with an empty-string start
node id that is a genuine node key. -/
def exSayEmptyId : SayNode :=
  { base := { nodeId := "", nodeType := "say", nextNodeId := "", createdAt := 0, lastUpdatedAt := 0 },
    message := "m", llmPrompt := "", messageType := "exact" }

def exWorkflowEmptyStart : Workflow :=
  { id := "w2", name := "", description := "",
    nodes := [("", Node.say exSayEmptyId)],
    startNodeId := "", createdAt := 0, updatedAt := 0 }

/-- A pre-existing (dirty) execution state for the triple (w, u, c) pointing
at a node other than the start node. -/
def exStateDirty : WorkflowState := { exStateA with currentNodeId := "other" }

def exStorageDirty : Storage :=
  { workflows := [], states := [(("w", "u", "c"), exStateDirty)] }

/-- Gather node with a configured fallback node and two allowed attempts. -/
def exGatherFallback : GatherNode :=
  { base := exBaseA, gatherSchema := exSchema, maxAttempts := 2,
    llmPrompt := "", fallbackNodeId := "FB", followUpPrompt := "", extractedData := [] }

/-- An extraction capability that fails on every attempt. -/
def capAllFail : Capability := fun _ => none

/-- A self-looping Say node: its next node id is its own id. -/
def exSayLoop : SayNode :=
  { base := { nodeId := "L", nodeType := "say", nextNodeId := "L", createdAt := 0, lastUpdatedAt := 0 },
    message := "again", llmPrompt := "", messageType := "exact" }

def exWorkflowLoop : Workflow :=
  { id := "wl", name := "", description := "",
    nodes := [("L", Node.say exSayLoop)], startNodeId := "L", createdAt := 0, updatedAt := 0 }

def exStateL : WorkflowState :=
  { workflowId := "wl", userId := "u", callId := "c", currentNodeId := "L",
    completedNodeIds := [], vars := [], lastMessageAt := 0, lastUpdatedAt := 0,
    isComplete := false }

def exStorageLoop : Storage :=
  { workflows := [("wl", exWorkflowLoop)], states := [(("wl", "u", "c"), exStateL)] }


/-- Node A after its execution extracted the two required sample values. -/
def exGatherA2 : GatherNode :=
  { exGatherA with
    extractedData := [("name", JValue.str "Sample name"), ("email", JValue.str "Sample email")] }

/-- The state after node A executed at clock 7: moved to B, A completed,
name and email extracted. -/
def exS1 : WorkflowState :=
  { exStateA with
    currentNodeId := "B", completedNodeIds := ["A"],
    vars := [("name", JValue.str "Sample name"), ("email", JValue.str "Sample email")],
    lastMessageAt := 7, lastUpdatedAt := 7 }

/-- The state after the auto-advanced Say node B executed at clock 7. -/
def exS2 : WorkflowState :=
  { exS1 with
    completedNodeIds := ["A", "B"],
    vars := exS1.vars ++ [("lastSayMessage", JValue.str "Goodbye")],
    isComplete := true }

/-! Helper lemmas. -/

theorem lookupKey_insertKey_self {K V : Type} [DecidableEq K]
    (m : List (K × V)) (k : K) (v : V) :
    lookupKey (insertKey m k v) k = some v := by
  induction m with
  | nil => simp [insertKey, lookupKey]
  | cons p rest ih =>
    obtain ⟨pk, pv⟩ := p
    by_cases h : pk = k
    · simp [insertKey, h, lookupKey]
    · simp [insertKey, h, lookupKey, ih]


theorem mem_collect {β : Type} (C : String × β → Prop) [DecidablePred C]
    (l : List (String × β)) (acc : List String) (x : String) :
    x ∈ l.foldl (fun a p => if C p then a ++ [p.1] else a) acc ↔
      x ∈ acc ∨ ∃ b, (x, b) ∈ l ∧ C (x, b) := by
  induction l generalizing acc with
  | nil => simp
  | cons p rest ih =>
    obtain ⟨pk, pv⟩ := p
    by_cases h : C (pk, pv)
    · rw [List.foldl_cons, if_pos h, ih]
      constructor
      · rintro (hx | ⟨b, hb, hc⟩)
        · rcases List.mem_append.1 hx with hx | hx
          · exact Or.inl hx
          · have hxpk : x = pk := by simpa using hx
            subst hxpk
            exact Or.inr ⟨pv, by simp, h⟩
        · exact Or.inr ⟨b, List.mem_cons_of_mem _ hb, hc⟩
      · rintro (hx | ⟨b, hb, hc⟩)
        · exact Or.inl (List.mem_append.2 (Or.inl hx))
        · rcases List.mem_cons.1 hb with heq | hb
          · have hxpk : x = pk := congrArg Prod.fst heq
            exact Or.inl (List.mem_append.2 (Or.inr (by simp [hxpk])))
          · exact Or.inr ⟨b, hb, hc⟩
    · rw [List.foldl_cons, if_neg h, ih]
      constructor
      · rintro (hx | ⟨b, hb, hc⟩)
        · exact Or.inl hx
        · exact Or.inr ⟨b, List.mem_cons_of_mem _ hb, hc⟩
      · rintro (hx | ⟨b, hb, hc⟩)
        · exact Or.inl hx
        · rcases List.mem_cons.1 hb with heq | hb
          · rw [heq] at hc
            exact absurd hc h
          · exact Or.inr ⟨b, hb, hc⟩

theorem retryExtract_eq_none (cap : Capability) :
    ∀ (r i : Nat), (∀ k, k < r → cap (i + k) = none) → retryExtract cap i r = none := by
  intro r
  induction r with
  | zero => intro i h; rfl
  | succ r ih =>
    intro i h
    have h0 : cap i = none := by simpa using h 0 (Nat.succ_pos r)
    unfold retryExtract
    rw [h0]
    refine ih (i + 1) (fun k hk => ?_)
    have heq : i + (k + 1) = (i + 1) + k := by omega
    have := h (k + 1) (Nat.succ_lt_succ hk)
    rw [heq] at this
    exact this

theorem retryExtract_first_success (cap : Capability) :
    ∀ (r i k : Nat) (d : List (String × JValue)), k < r →
      (∀ j, j < k → cap (i + j) = none) → cap (i + k) = some d →
      retryExtract cap i r = some d := by
  intro r
  induction r with
  | zero => intro i k d hk _ _; exact absurd hk (Nat.not_lt_zero k)
  | succ r ih =>
    intro i k d hk hprev hsucc
    cases k with
    | zero =>
      rw [Nat.add_zero] at hsucc
      unfold retryExtract
      rw [hsucc]
    | succ k =>
      have h0 : cap i = none := by simpa using hprev 0 (Nat.succ_pos k)
      unfold retryExtract
      rw [h0]
      refine ih (i + 1) k d (Nat.lt_of_succ_lt_succ hk) (fun j hj => ?_) ?_
      · have heq : i + (j + 1) = (i + 1) + j := by omega
        have := hprev (j + 1) (Nat.succ_lt_succ hj)
        rw [heq] at this
        exact this
      · have heq : i + (k + 1) = (i + 1) + k := by omega
        rw [heq] at hsucc
        exact hsucc

/-! Claim theorems. -/

/-- C2: once an execution state is complete, a further
ProcessConversationUpdate call is a no-op: it returns the stored state
byte-for-byte unchanged (no field, including lastMessageAt, is modified)
and persists nothing (storage is returned unchanged). -/
theorem process_complete_noop
    (σ : Storage) (w u c : String) (msgs : List (List (String × String))) (now : Nat)
    (wf : Workflow)
    (hwf : getWorkflow σ w = some wf)
    (hc : (getWorkflowState σ w u c).isComplete = true) :
    processConversationUpdate σ w u c msgs now = (σ, Except.ok (getWorkflowState σ w u c)) := by
  unfold processConversationUpdate
  rw [hwf]
  simp [hc]

/-- Witness for C2 at a concrete completed execution. -/
theorem process_complete_noop_witness :
    processConversationUpdate exStorageDone "w" "u" "c" [] 9 =
      (exStorageDone, Except.ok exStateDone) :=
  process_complete_noop exStorageDone "w" "u" "c" [] 9 exWorkflow rfl rfl

/-- C4: StartWorkflow is idempotent: for an execution that has already
started (its stored state has a non-empty currentNodeId), StartWorkflow
returns the existing state unchanged and leaves storage unchanged, so the
currentNodeId established by the first call is never modified. -/
theorem startWorkflow_idempotent
    (σ : Storage) (w u c : String) (wf : Workflow)
    (hwf : getWorkflow σ w = some wf)
    (hstarted : (getWorkflowState σ w u c).currentNodeId ≠ "") :
    startWorkflow σ w u c = (σ, Except.ok (getWorkflowState σ w u c)) := by
  unfold startWorkflow
  rw [hwf]
  simp [hstarted]

/-- Witness for C4 at a concrete started execution. -/
theorem startWorkflow_idempotent_witness :
    startWorkflow exStorage "w" "u" "c" = (exStorage, Except.ok exStateA) :=
  startWorkflow_idempotent exStorage "w" "u" "c" exWorkflow rfl (by decide)

/-- C6: when a non-complete execution state's currentNodeId is not a key of
the workflow's node map, ProcessConversationUpdate fails with
ErrNodeNotFound carrying that missing id, and storage is unmodified. -/
theorem process_unknown_node
    (σ : Storage) (w u c : String) (msgs : List (List (String × String))) (now : Nat)
    (wf : Workflow)
    (hwf : getWorkflow σ w = some wf)
    (hnc : (getWorkflowState σ w u c).isComplete = false)
    (hmiss : lookupKey wf.nodes (getWorkflowState σ w u c).currentNodeId = none) :
    processConversationUpdate σ w u c msgs now =
      (σ, Except.error (EngineError.nodeNotFound (getWorkflowState σ w u c).currentNodeId)) := by
  unfold processConversationUpdate
  rw [hwf]
  simp [hnc, hmiss]

/-- Witness for C6 at a concrete dangling current node id. -/
theorem process_unknown_node_witness :
    processConversationUpdate exStorageGhost "w" "u" "c" [] 4 =
      (exStorageGhost, Except.error (EngineError.nodeNotFound "ghost")) :=
  process_unknown_node exStorageGhost "w" "u" "c" [] 4 exWorkflow rfl rfl rfl


/-- C1: for a two-node workflow A(Gather, next=B) -> B(Say, terminal), one
ProcessConversationUpdate call from a fresh state at A completes A's
extraction, auto-advances through the terminal Say node B, and leaves
isComplete true with completedNodeIds = [A, B]. -/
theorem chain_gather_say
    (σ : Storage) (w u c a b : String) (msgs : List (List (String × String))) (now : Nat)
    (wf : Workflow) (nA : GatherNode) (nB : SayNode)
    (hwf : getWorkflow σ w = some wf)
    (hnodes : wf.nodes = [(a, Node.gather nA), (b, Node.say nB)])
    (hab : a ≠ b) (hbne : b ≠ "")
    (hAid : nA.base.nodeId = a) (hAnext : nA.base.nextNodeId = b)
    (hBid : nB.base.nodeId = b) (hBtype : nB.base.nodeType = nodeTypeSay)
    (hBnext : nB.base.nextNodeId = "")
    (hcur : (getWorkflowState σ w u c).currentNodeId = a)
    (hnc : (getWorkflowState σ w u c).isComplete = false)
    (hdone : (getWorkflowState σ w u c).completedNodeIds = []) :
    ∃ s2, (processConversationUpdate σ w u c msgs now).2 = Except.ok s2
      ∧ s2.isComplete = true ∧ s2.completedNodeIds = [a, b] := by
  unfold processConversationUpdate
  rw [hwf]
  simp [Node.execute, GatherNode.execute, SayNode.execute, Node.id, Node.type,
        hnodes, hcur, hnc, hdone, hAid, hAnext, hBid, hBtype, hBnext,
        lookupKey, insertKey, hab, Ne.symm hab, hbne, nodeTypeSay]


/-- Witness for C1 on the concrete two-node workflow. -/
theorem chain_gather_say_witness :
    ∃ s2, (processConversationUpdate exStorage "w" "u" "c" [] 7).2 = Except.ok s2
      ∧ s2.isComplete = true ∧ s2.completedNodeIds = ["A", "B"] :=
  chain_gather_say exStorage "w" "u" "c" "A" "B" [] 7 exWorkflow exGatherA exSayB
    rfl rfl (by decide) (by decide) rfl rfl rfl rfl rfl rfl rfl rfl

/-- C5: after the current node executes and moves the state to a new node
id, the engine executes the successor synchronously within the same call
iff the successor's Type() is say, chaining at most that one extra hop (the
returned state is exactly the successor's one execution); a non-Say (e.g.
Gather) successor is never executed in the same call (the returned state is
exactly the first execution's result). -/
theorem autoAdvance_say_only
    (σ : Storage) (w u c : String) (msgs : List (List (String × String))) (now : Nat)
    (wf : Workflow) (node node2 : Node) (s1 : WorkflowState)
    (hwf : getWorkflow σ w = some wf)
    (hnc : (getWorkflowState σ w u c).isComplete = false)
    (hlook : lookupKey wf.nodes (getWorkflowState σ w u c).currentNodeId = some node)
    (hexec : node.execute now { getWorkflowState σ w u c with lastMessageAt := now } =
      Except.ok (node2, s1))
    (hs1 : s1.isComplete = false) (hmoved : s1.currentNodeId ≠ node.id) :
    (∀ next, lookupKey (insertKey wf.nodes (getWorkflowState σ w u c).currentNodeId node2)
          s1.currentNodeId = some next →
        next.type ≠ nodeTypeSay →
        (processConversationUpdate σ w u c msgs now).2 = Except.ok s1)
    ∧ (∀ next next2 s2,
        lookupKey (insertKey wf.nodes (getWorkflowState σ w u c).currentNodeId node2)
          s1.currentNodeId = some next →
        next.type = nodeTypeSay →
        next.execute now s1 = Except.ok (next2, s2) →
        (processConversationUpdate σ w u c msgs now).2 = Except.ok s2) := by
  simp only [hnc] at hexec
  constructor
  · intro next hnext htype
    unfold processConversationUpdate
    rw [hwf]
    simp [hnc, hlook, hexec, hnext, htype, hs1, hmoved]
  · intro next next2 s2 hnext htype hexec2
    unfold processConversationUpdate
    rw [hwf]
    simp [hnc, hlook, hexec, hnext, htype, hexec2, hs1, hmoved]

/-- Witness for C5: on the concrete workflow the Say successor B is executed
within the same call, yielding exactly one extra hop. -/
theorem autoAdvance_say_only_witness :
    (processConversationUpdate exStorage "w" "u" "c" [] 7).2 = Except.ok exS2 :=
  (autoAdvance_say_only exStorage "w" "u" "c" [] 7 exWorkflow
      (Node.gather exGatherA) (Node.gather exGatherA2) exS1
      rfl rfl rfl rfl rfl (by decide)).2
    (Node.say exSayB) (Node.say exSayB) exS2 rfl rfl rfl

/-- C10: a node whose nextNodeId is its own id is executed exactly once per
ProcessConversationUpdate call and never auto-advances, even when it is a
Say node, because the engine detects advancement by comparing the
post-execution currentNodeId with the executed node's id. -/
theorem selfLoop_executes_once
    (σ : Storage) (w u c : String) (msgs : List (List (String × String))) (now : Nat)
    (wf : Workflow) (node : Node)
    (hwf : getWorkflow σ w = some wf)
    (hnc : (getWorkflowState σ w u c).isComplete = false)
    (hlook : lookupKey wf.nodes (getWorkflowState σ w u c).currentNodeId = some node)
    (hself : node.nextNodeId = node.id) :
    ∃ node2 s1,
      node.execute now { getWorkflowState σ w u c with lastMessageAt := now } =
        Except.ok (node2, s1)
      ∧ processConversationUpdate σ w u c msgs now = (saveWorkflowState σ s1, Except.ok s1)
      ∧ s1.completedNodeIds = (getWorkflowState σ w u c).completedNodeIds ++ [node.id] := by
  cases node with
  | say n =>
    simp only [Node.nextNodeId, Node.id] at hself
    refine ⟨_, _, rfl, ?_, by simp [Node.execute, SayNode.execute, Node.id]⟩
    unfold processConversationUpdate
    rw [hwf]
    by_cases hid : n.base.nodeId = ""
    · simp [hnc, hlook, Node.execute, SayNode.execute, Node.id, hself, hid]
    · simp [hnc, hlook, Node.execute, SayNode.execute, Node.id, hself, hid]
  | gather n =>
    simp only [Node.nextNodeId, Node.id] at hself
    refine ⟨_, _, rfl, ?_, by simp [Node.execute, GatherNode.execute, Node.id]⟩
    unfold processConversationUpdate
    rw [hwf]
    by_cases hid : n.base.nodeId = ""
    · simp [hnc, hlook, Node.execute, GatherNode.execute, Node.id, hself, hid]
    · simp [hnc, hlook, Node.execute, GatherNode.execute, Node.id, hself, hid]


/-- Counterexample for C7: the engine-package SayNode.Execute does not
return an error for an unsupported messageType; it succeeds and records an
empty lastSayMessage. -/
theorem say_unsupported_type_no_error_cex :
    exSayBogus.messageType ≠ "exact" ∧ exSayBogus.messageType ≠ "generated"
    ∧ SayNode.execute 3 exSayBogus exStateA =
        Except.ok (exSayBogus,
          { exStateA with
            vars := [("lastSayMessage", JValue.str "")],
            completedNodeIds := ["X"], isComplete := true, lastUpdatedAt := 3 }) :=
  ⟨by decide, by decide, rfl⟩

/-- C7 (amended): Node.Execute returns an error only for malformed node
configuration and never merely because nothing has been extracted yet: the
engine-package Say and Gather Execute variants never return an error at all
(an unsupported messageType silently resolves the empty message), while the
alternate Say variant (src/unnamed/part_005) returns an error exactly when
the messageType discriminator is neither exact nor generated. -/
theorem execute_error_only_malformed :
    (∀ (now : Nat) (n : SayNode) (s : WorkflowState),
      ∃ r, SayNode.execute now n s = Except.ok r)
    ∧ (∀ (now : Nat) (n : GatherNode) (s : WorkflowState),
      ∃ r, GatherNode.execute now n s = Except.ok r)
    ∧ (∀ (now : Nat) (n : SayNode) (s : WorkflowState) (msgs : List (String × String)),
      (∃ e, sayExecuteMsgs now n s msgs = Except.error e) ↔
        (n.messageType ≠ "exact" ∧ n.messageType ≠ "generated")) := by
  refine ⟨fun now n s => ⟨_, rfl⟩, fun now n s => ⟨_, rfl⟩, fun now n s msgs => ?_⟩
  by_cases h1 : n.messageType = "exact"
  · simp [sayExecuteMsgs, h1]
  · by_cases h2 : n.messageType = "generated"
    · simp [sayExecuteMsgs, h1, h2]
    · simp [sayExecuteMsgs, h1, h2]

/-- Counterexample for C9: the missing-field set computed during the
engine-package GatherNode.Execute contains the required-but-nullable field
f, and executing the node extracts it. -/
theorem gather_missing_nullable_cex :
    gatherExecMissing exGatherNullable = ["f"]
    ∧ (getProp exGatherNullable.gatherSchema "f").nullable = true
    ∧ getMissingProperties exGatherNullable = []
    ∧ (∃ n2 s2, GatherNode.execute 2 exGatherNullable exStateA = Except.ok (n2, s2)
        ∧ lookupKey s2.vars "f" = some (JValue.str "Sample f")) := by
  refine ⟨rfl, rfl, rfl, ⟨_, _, rfl, rfl⟩⟩

/-- C9 (amended): the missing-field sets never contain an optional field
(one absent from the schema's required list); getMissingProperties also
excludes nullable fields, while the computation inlined in Execute includes
a required field even when it is nullable; consequently, for the profile
schema requiring name and email with optional age, execution extracts name
and email into the state variables and leaves age absent. -/
theorem gather_missing_required_only :
    (∀ (n : GatherNode) (p : String), p ∈ gatherExecMissing n → p ∈ n.gatherSchema.required)
    ∧ (∀ (n : GatherNode) (p : String), p ∈ getMissingProperties n →
        p ∈ n.gatherSchema.required
          ∧ ∃ pd, (p, pd) ∈ n.gatherSchema.properties ∧ pd.nullable = false)
    ∧ (∃ n2 s2, GatherNode.execute 7 exGatherA exStateA = Except.ok (n2, s2)
        ∧ lookupKey s2.vars "name" = some (JValue.str "Sample name")
        ∧ lookupKey s2.vars "email" = some (JValue.str "Sample email")
        ∧ lookupKey s2.vars "age" = none) := by
  refine ⟨?_, ?_, ⟨_, _, rfl, rfl, rfl, rfl⟩⟩
  · intro n p hp
    unfold gatherExecMissing at hp
    by_cases ht : n.gatherSchema.type = mindsObject
    · rw [if_pos ht] at hp
      rcases (mem_collect _ _ _ _).1 hp with hx | ⟨pd, _, hc⟩
      · simp at hx
      · exact hc.1
    · rw [if_neg ht] at hp
      simp at hp
  · intro n p hp
    unfold getMissingProperties at hp
    by_cases ht : n.gatherSchema.type = mindsObject
    · rw [if_pos ht] at hp
      rcases (mem_collect _ _ _ _).1 hp with hx | ⟨pd, hmem, hc⟩
      · simp at hx
      · exact ⟨hc.1, pd, hmem, hc.2.1⟩
    · rw [if_neg ht] at hp
      simp at hp

/-- Witness for C9 (amended) at the nullable-field fixture. -/
theorem gather_missing_required_only_witness :
    "f" ∈ exGatherNullable.gatherSchema.required :=
  gather_missing_required_only.1 exGatherNullable "f" (by decide)

/-- Counterexample for C3: a workflow that meets the claimed validity
conditions (non-empty id, non-empty nodes, startNodeId present in nodes) is
rejected by CreateWorkflow when its startNodeId is the empty string; and
with a pre-existing execution state for the triple, StartWorkflow after a
successful CreateWorkflow returns a currentNodeId other than startNodeId. -/
theorem create_start_cex :
    (exWorkflowEmptyStart.id ≠ ""
      ∧ exWorkflowEmptyStart.nodes ≠ []
      ∧ (lookupKey exWorkflowEmptyStart.nodes exWorkflowEmptyStart.startNodeId).isSome = true
      ∧ (createWorkflow emptyStorage exWorkflowEmptyStart 5).2 =
          Except.error (EngineError.validation "workflow must have a start node"))
    ∧ ((createWorkflow exStorageDirty exWorkflow 5).2 = Except.ok ()
      ∧ (startWorkflow (createWorkflow exStorageDirty exWorkflow 5).1 "w" "u" "c").2 =
          Except.ok exStateDirty
      ∧ exStateDirty.currentNodeId ≠ exWorkflow.startNodeId) :=
  ⟨⟨by decide, by decide, rfl, rfl⟩, ⟨rfl, rfl, by decide⟩⟩

/-- C3 (amended): for every workflow with non-empty id and non-empty
startNodeId that resolves in its node map, CreateWorkflow succeeds, and a
subsequent StartWorkflow for any (userId, callId) whose execution state
does not pre-exist yields currentNodeId = startNodeId. -/
theorem create_start_ok
    (σ : Storage) (wf : Workflow) (u c : String) (now : Nat) (n0 : Node)
    (hid : wf.id ≠ "") (hstart : wf.startNodeId ≠ "")
    (hlook : lookupKey wf.nodes wf.startNodeId = some n0)
    (hfresh : lookupKey σ.states (wf.id, u, c) = none) :
    (createWorkflow σ wf now).2 = Except.ok ()
    ∧ ∃ st, (startWorkflow (createWorkflow σ wf now).1 wf.id u c).2 = Except.ok st
        ∧ st.currentNodeId = wf.startNodeId := by
  have hne : wf.nodes ≠ [] := by
    intro h
    rw [h] at hlook
    simp [lookupKey] at hlook
  have h1 : createWorkflow σ wf now =
      (saveWorkflow σ { wf with
        createdAt := if wf.createdAt = 0 then now else wf.createdAt
        updatedAt := now }, Except.ok ()) := by
    simp [createWorkflow, hid, hstart, hne, hlook]
  refine ⟨by rw [h1], ?_⟩
  rw [h1]
  have h2 : getWorkflow (saveWorkflow σ { wf with
      createdAt := if wf.createdAt = 0 then now else wf.createdAt
      updatedAt := now }) wf.id = some { wf with
      createdAt := if wf.createdAt = 0 then now else wf.createdAt
      updatedAt := now } := by
    simp [getWorkflow, saveWorkflow, lookupKey_insertKey_self]
  unfold startWorkflow
  rw [h2]
  simp [getWorkflowState, saveWorkflow, hfresh]

/-- Witness for C3 (amended) at a concrete valid workflow and fresh triple. -/
theorem create_start_ok_witness :
    (createWorkflow emptyStorage exWorkflow 5).2 = Except.ok ()
    ∧ ∃ st, (startWorkflow (createWorkflow emptyStorage exWorkflow 5).1
          exWorkflow.id "u9" "c9").2 = Except.ok st
        ∧ st.currentNodeId = exWorkflow.startNodeId :=
  create_start_ok emptyStorage exWorkflow "u9" "c9" 5 (Node.gather exGatherA)
    (by decide) (by decide) rfl rfl

/-- C8 (spec-modelled): when the external extraction capability fails
during a Gather execution with missing required fields, the extraction is
retried up to the node's maxAttempts; once the attempts are exhausted the
execution is routed to fallbackNodeId when one is configured, and the error
is surfaced to the caller only when no fallback is configured; a success at
any attempt within maxAttempts (after earlier failures) makes the execution
succeed. -/
theorem gather_retry_fallback (cap : Capability) (now : Nat) (n : GatherNode)
    (s : WorkflowState) (hm : gatherExecMissing n ≠ []) :
    ((∀ k, k < n.maxAttempts → cap k = none) →
      (n.fallbackNodeId ≠ "" →
        gatherExecuteExt cap now n s =
          Except.ok (n, { s with currentNodeId := n.fallbackNodeId, lastUpdatedAt := now }))
      ∧ (n.fallbackNodeId = "" →
        gatherExecuteExt cap now n s = Except.error ExecError.extractionFailed))
    ∧ (∀ k d, k < n.maxAttempts → (∀ j, j < k → cap j = none) → cap k = some d →
        ∃ r, gatherExecuteExt cap now n s = Except.ok r) := by
  constructor
  · intro hall
    have hnone : retryExtract cap 0 n.maxAttempts = none :=
      retryExtract_eq_none cap n.maxAttempts 0 (fun k hk => by simpa using hall k hk)
    constructor
    · intro hfb
      simp [gatherExecuteExt, hm, hnone, hfb]
    · intro hfb
      simp [gatherExecuteExt, hm, hnone, hfb]
  · intro k d hk hprev hsucc
    have hsome : retryExtract cap 0 n.maxAttempts = some d :=
      retryExtract_first_success cap n.maxAttempts 0 k d hk
        (fun j hj => by simpa using hprev j hj) (by simpa using hsucc)
    cases hres : gatherExecuteExt cap now n s with
    | ok r => exact ⟨r, rfl⟩
    | error e =>
      exfalso
      revert hres
      simp [gatherExecuteExt, hm, hsome]

/-- Witness for C8: with an always-failing capability the concrete node is
routed to its configured fallback node. -/
theorem gather_retry_fallback_witness :
    gatherExecuteExt capAllFail 4 exGatherFallback exStateA =
      Except.ok (exGatherFallback, { exStateA with currentNodeId := "FB", lastUpdatedAt := 4 }) :=
  ((gather_retry_fallback capAllFail 4 exGatherFallback exStateA (by decide)).1
      (fun k hk => rfl)).1 (by decide)


/-- Witness for C10 at a concrete self-looping Say node. -/
theorem selfLoop_executes_once_witness :
    ∃ node2 s1,
      (Node.say exSayLoop).execute 6
          { getWorkflowState exStorageLoop "wl" "u" "c" with lastMessageAt := 6 } =
        Except.ok (node2, s1)
      ∧ processConversationUpdate exStorageLoop "wl" "u" "c" [] 6 =
          (saveWorkflowState exStorageLoop s1, Except.ok s1)
      ∧ s1.completedNodeIds =
          (getWorkflowState exStorageLoop "wl" "u" "c").completedNodeIds
            ++ [(Node.say exSayLoop).id] :=
  selfLoop_executes_once exStorageLoop "wl" "u" "c" [] 6 exWorkflowLoop
    (Node.say exSayLoop) rfl rfl rfl rfl

/-- Witness for C7 (amended): the alternate Say variant errors at the
concrete unsupported message type. -/
theorem execute_error_only_malformed_witness :
    ∃ e, sayExecuteMsgs 3 exSayBogus exStateA [] = Except.error e :=
  (execute_error_only_malformed.2.2 3 exSayBogus exStateA []).mpr ⟨by decide, by decide⟩

end VapiGo
